import Mathlib

/-!
Verification of the async DNS-SD wrapper library against its specification.

The relevant Rust modules are shallowly embedded:
machine integers (`u8`, `u16`, `u32`, `i32`) become `Nat`/`Int` with explicit
range hypotheses where they matter, byte slices become `List Nat`, fallible
functions return `Option`/`Except`, and the stateful/FFI parts (record drop,
timeout stream polling) become explicit state-passing functions whose FFI
side effects are reified as data.
-/

namespace AsyncDnssd

/-! ## ffi.rs: interface index constants

`pub const INTERFACE_INDEX_ANY: u32 = 0;`
`pub const INTERFACE_INDEX_LOCAL_ONLY: u32 = !0;`
`pub const INTERFACE_INDEX_UNICAST: u32 = !1;`
`pub const INTERFACE_INDEX_P2P: u32 = !2;`
(`!x` is bitwise complement on `u32`.) -/

def INTERFACE_INDEX_ANY : Nat := 0

def INTERFACE_INDEX_LOCAL_ONLY : Nat := 4294967295

def INTERFACE_INDEX_UNICAST : Nat := 4294967294

def INTERFACE_INDEX_P2P : Nat := 4294967293

/-! ## interface.rs -/

/-- Embeds `pub struct InterfaceIndex(u32);` -/
structure InterfaceIndex where
  raw : Nat
deriving DecidableEq

/-- Embeds `InterfaceIndex::from_raw`: `None` on the four reserved values,
`Some(InterfaceIndex(ndx))` otherwise. -/
def InterfaceIndex.from_raw (ndx : Nat) : Option InterfaceIndex :=
  if ndx = INTERFACE_INDEX_ANY then none
  else if ndx = INTERFACE_INDEX_LOCAL_ONLY then none
  else if ndx = INTERFACE_INDEX_UNICAST then none
  else if ndx = INTERFACE_INDEX_P2P then none
  else some ⟨ndx⟩

/-- Embeds `InterfaceIndex::into_raw`. -/
def InterfaceIndex.into_raw (i : InterfaceIndex) : Nat := i.raw

/-- Embeds `pub enum Interface { Any, Index(InterfaceIndex), LocalOnly, Unicast, PeerToPeer }`. -/
inductive Interface where
  | Any : Interface
  | Index : InterfaceIndex → Interface
  | LocalOnly : Interface
  | Unicast : Interface
  | PeerToPeer : Interface
deriving DecidableEq

/-- Embeds `Interface::from_raw` (a total match on the raw `u32`). -/
def Interface.from_raw (raw : Nat) : Interface :=
  if raw = INTERFACE_INDEX_ANY then .Any
  else if raw = INTERFACE_INDEX_LOCAL_ONLY then .LocalOnly
  else if raw = INTERFACE_INDEX_UNICAST then .Unicast
  else if raw = INTERFACE_INDEX_P2P then .PeerToPeer
  else .Index ⟨raw⟩

/-- Embeds `Interface::into_raw`. -/
def Interface.into_raw : Interface → Nat
  | .Any => INTERFACE_INDEX_ANY
  | .Index ⟨raw⟩ => raw
  | .LocalOnly => INTERFACE_INDEX_LOCAL_ONLY
  | .Unicast => INTERFACE_INDEX_UNICAST
  | .PeerToPeer => INTERFACE_INDEX_P2P

/-- Embeds `Interface::scope_id`: the interface index, or zero when no
single interface is selected. -/
def Interface.scope_id : Interface → Nat
  | .Index ⟨scope_id⟩ => scope_id
  | _ => 0

/-! ## ffi.rs / error.rs: error code conversion -/

/-- Embeds the `c_api_enum! DNSServiceNoError` enum of `ffi.rs`
(`NoError = 0` plus the windows connection-status and non-error values). -/
inductive DNSServiceNoError where
  | NoError
  | ConnectionPending
  | ConnectionFailed
  | ConnectionEstablished
  | GrowCache
  | ConfigChanged
  | MemFree
deriving DecidableEq

/-- Embeds the generated `DNSServiceNoError::try_from` (a chain of equality
tests against the declared values). -/
def DNSServiceNoError.try_from (value : Int) : Option DNSServiceNoError :=
  if value = 0 then some .NoError
  else if value = -65570 then some .ConnectionPending
  else if value = -65571 then some .ConnectionFailed
  else if value = -65572 then some .ConnectionEstablished
  else if value = -65790 then some .GrowCache
  else if value = -65791 then some .ConfigChanged
  else if value = -65792 then some .MemFree
  else none

/-- Embeds the `c_api_enum! DNSServiceError` enum exactly as it stands in
`ffi.rs` of this repository (21 variants, `Unknown = -65537` through
`BufferTooSmall = -65558`). -/
inductive DNSServiceError where
  | Unknown
  | NoSuchName
  | NoMemory
  | BadParam
  | BadReference
  | BadState
  | BadFlags
  | Unsupported
  | NotInitialized
  | NoCache
  | AlreadyRegistered
  | NameConflict
  | Invalid
  | Incompatible
  | BadInterfaceIndex
  | Refused
  | NoSuchRecord
  | NoAuth
  | NoSuchKey
  | NoValue
  | BufferTooSmall
deriving DecidableEq

/-- Embeds the generated `DNSServiceError::try_from` for the enum exactly as
declared in `ffi.rs` (note: no values between -65550 and -65549 other than
those listed; -65546 is `NoCache`, -65557 is `NoValue`, -65558 is
`BufferTooSmall`; the codes -65550 and -65559..-65571 and -65806 match no
variant). -/
def DNSServiceError.try_from (value : Int) : Option DNSServiceError :=
  if value = -65537 then some .Unknown
  else if value = -65538 then some .NoSuchName
  else if value = -65539 then some .NoMemory
  else if value = -65540 then some .BadParam
  else if value = -65541 then some .BadReference
  else if value = -65542 then some .BadState
  else if value = -65543 then some .BadFlags
  else if value = -65544 then some .Unsupported
  else if value = -65545 then some .NotInitialized
  else if value = -65546 then some .NoCache
  else if value = -65547 then some .AlreadyRegistered
  else if value = -65548 then some .NameConflict
  else if value = -65549 then some .Invalid
  else if value = -65551 then some .Incompatible
  else if value = -65552 then some .BadInterfaceIndex
  else if value = -65553 then some .Refused
  else if value = -65554 then some .NoSuchRecord
  else if value = -65555 then some .NoAuth
  else if value = -65556 then some .NoSuchKey
  else if value = -65557 then some .NoValue
  else if value = -65558 then some .BufferTooSmall
  else none

/-- Embeds `pub enum Error` of `error.rs` (the `IoError` variant carries a
runtime I/O error; it is never produced by `Error::from` and is modelled
with an abstract code). -/
inductive Error where
  | KnownError : DNSServiceError → Error
  | UnknownError : Int → Error
  | IoError : Nat → Error
deriving DecidableEq

/-- Embeds `Error::from(value: DNSServiceErrorType) -> Result<(), Self>`:
`Ok(())` when the code is a recognized non-error code, otherwise a
`KnownError` when recognized and `UnknownError(value)` otherwise. -/
def Error.from (value : Int) : Except Error Unit :=
  if (DNSServiceNoError.try_from value).isSome then .ok ()
  else
    match DNSServiceError.try_from value with
    | some e => .error (.KnownError e)
    | none => .error (.UnknownError value)

/-! ## inner.rs: record submission and lifetime; service/register.rs -/

/-- Outcome of the rdata-length handling at the start of a record
submission: the call can die with a panic, could in principle return an
`InvalidInput` I/O error, or proceeds to the C FFI call with a 16-bit
length. -/
inductive RdLenOutcome where
  | panicked
  | invalidInputError
  | proceed : Nat → RdLenOutcome
deriving DecidableEq

/-- Embeds the common prologue of `SharedService::add_record`,
`SharedService::register_record` and `DNSRecord::update_record` in
`inner.rs`:
`let rd_len = rdata.len(); assert!(rd_len < (1 << 16)); let rd_len = rd_len as u16;`.
A failed `assert!` is a Rust panic; only on success does control reach the
FFI call that could create record state. -/
def rd_len_check (rdata_len : Nat) : RdLenOutcome :=
  if rdata_len < 2 ^ 16 then .proceed rdata_len else .panicked

/-- An FFI call on the parent service handle, as observable effect. -/
inductive FfiCall where
  | removeRecord : Nat → FfiCall
deriving DecidableEq

/-- Embeds `pub(crate) struct DNSRecord` of `inner.rs`: the raw
`DNSRecordRef` is null or a real record reference (modelled as `Option`). -/
structure DNSRecord where
  raw : Option Nat
deriving DecidableEq

/-- A record as constructed by a successful `add_record` /
`register_record` call: `raw` holds the `record_ref` the C library
returned. -/
def DNSRecord.fromSubmission (record_ref : Nat) : DNSRecord :=
  { raw := some record_ref }

/-- Embeds `DNSRecord::keep`: `self.raw.0 = null_mut()`. -/
def DNSRecord.keep (_ : DNSRecord) : DNSRecord :=
  { raw := none }

/-- Embeds `impl Drop for DNSRecord`: if the raw reference is non-null,
issue `DNSServiceRemoveRecord(handle, raw, 0)` on the parent handle;
otherwise do nothing. Returns the list of FFI calls issued. -/
def DNSRecord.dropCalls (r : DNSRecord) : List FfiCall :=
  match r.raw with
  | some p => [.removeRecord p]
  | none => []

/-! ## service/register.rs: registration status updates -/

/-- Embeds `pub struct RegisterResult { name, reg_type, domain }` of
`service/register.rs` — the value delivered for each registration status
update. -/
structure RegisterResult where
  name : String
  reg_type : String
  domain : String
deriving DecidableEq

/-- The `kDNSServiceFlagsAdd` bit (`ffi::FLAGS_ADD = 0x2`). -/
def FLAGS_ADD : Nat := 2

/-- Embeds the success path of `register_callback` in
`service/register.rs`: the C library passes `_flags`, `name`, `reg_type`
and `domain`; the callback builds a `RegisterResult` from the three
strings (the `_flags` argument is not used). -/
def register_callback (flags : Nat) (name reg_type domain : String) :
    RegisterResult :=
  { name := name, reg_type := reg_type, domain := domain }

end AsyncDnssd

namespace AsyncDnssd

/-! ## dns_consts.rs: CLASS and RRTYPE code points -/

/-- Embeds `pub struct Class(pub u16);` of `dns_consts.rs`. -/
structure Class where
  code : Nat
deriving DecidableEq

/-- `Class::IN = Class(0x0001)`. -/
def Class.IN : Class := ⟨1⟩

/-- Embeds `pub struct Type(pub u16);` of `dns_consts.rs` (named `RRType`
here because `Type` is a sort in Lean). -/
structure RRType where
  code : Nat
deriving DecidableEq

/-- `Type::A = Type(0x0001)`. -/
def RRType.A : RRType := ⟨1⟩

/-- `Type::AAAA = Type(0x001c)`. -/
def RRType.AAAA : RRType := ⟨28⟩

/-! ## service/query_record.rs and service/resolve_host.rs -/

/-- Embeds `pub struct QueryRecordResult` of `service/query_record.rs`
(the flag bitset is kept as the raw word). -/
structure QueryRecordResult where
  flags : Nat
  interface : Interface
  fullname : String
  rr_type : RRType
  rr_class : Class
  rdata : List Nat
  ttl : Nat
deriving DecidableEq

/-- Embeds `pub enum ScopedSocketAddr` of `service/resolve_host.rs`; the
IP address is kept as its octet list (4 bytes for V4, 16 for V6). -/
inductive ScopedSocketAddr where
  | V4 : List Nat → Nat → Nat → ScopedSocketAddr
  | V6 : List Nat → Nat → Nat → ScopedSocketAddr
deriving DecidableEq

/-- The port stored in a `ScopedSocketAddr`. -/
def ScopedSocketAddr.port : ScopedSocketAddr → Nat
  | .V4 _ p _ => p
  | .V6 _ p _ => p

/-- The scope id stored in a `ScopedSocketAddr`. -/
def ScopedSocketAddr.scope_id : ScopedSocketAddr → Nat
  | .V4 _ _ s => s
  | .V6 _ _ s => s

/-- The address octets stored in a `ScopedSocketAddr`. -/
def ScopedSocketAddr.octets : ScopedSocketAddr → List Nat
  | .V4 a _ _ => a
  | .V6 a _ _ => a

/-- `ResolvedHostFlags` declares only the `ADD = 0x2` bit, so
`from_bits_truncate` keeps exactly that bit of the raw flag word. -/
def ResolvedHostFlags.from_bits_truncate (bits : Nat) : Nat :=
  bits &&& FLAGS_ADD

/-- Embeds `pub struct ResolveHostResult` of `service/resolve_host.rs`. -/
structure ResolveHostResult where
  flags : Nat
  address : ScopedSocketAddr
deriving DecidableEq

/-- Embeds `fn decode_a(a: QueryRecordResult, port: u16)` of
`service/resolve_host.rs`: forwards the record as a V4 address item only
when the class is `IN`, the type is `A` and the rdata is exactly 4 bytes;
otherwise drops it. -/
def decode_a (a : QueryRecordResult) (port : Nat) : Option ResolveHostResult :=
  if a.rr_class = Class.IN ∧ a.rr_type = RRType.A ∧ a.rdata.length = 4 then
    some { flags := ResolvedHostFlags.from_bits_truncate a.flags,
           address := .V4 a.rdata port a.interface.scope_id }
  else
    none

/-- Embeds `fn decode_aaaa(a: QueryRecordResult, port: u16)` of
`service/resolve_host.rs`: forwards the record as a V6 address item only
when the class is `IN`, the type is `AAAA` and the rdata is exactly 16
bytes; otherwise drops it. -/
def decode_aaaa (a : QueryRecordResult) (port : Nat) : Option ResolveHostResult :=
  if a.rr_class = Class.IN ∧ a.rr_type = RRType.AAAA ∧ a.rdata.length = 16 then
    some { flags := ResolvedHostFlags.from_bits_truncate a.flags,
           address := .V6 a.rdata port a.interface.scope_id }
  else
    none

/-! ## timeout_stream.rs -/

/-- A poll of the inner stream (`futures 0.1`):
`Ok(Ready(None))`, `Ok(Ready(Some(item)))`, `Ok(NotReady)`, `Err(e)`. -/
inductive StreamPoll (I E : Type) where
  | ready : Option I → StreamPoll I E
  | notReady : StreamPoll I E
  | err : E → StreamPoll I E
deriving DecidableEq

/-- A successful poll of a `Timeout` future: fired or still pending. -/
inductive TimerAsync where
  | ready : TimerAsync
  | notReady : TimerAsync
deriving DecidableEq

/-- Abstract `std::io::Error` produced by the timer machinery. -/
structure IoErr where
  code : Nat
deriving DecidableEq

/-- The value of one `TimeoutStream::poll` call:
`Ok(Ready(..))`, `Ok(NotReady)`, `Err(StreamError(e))` or
`Err(TimeoutError(e))` (the latter two embed `TimeoutStreamError`). -/
inductive TimeoutPollOut (I E : Type) where
  | ready : Option I → TimeoutPollOut I E
  | notReady : TimeoutPollOut I E
  | streamError : E → TimeoutPollOut I E
  | timeoutError : IoErr → TimeoutPollOut I E
deriving DecidableEq

/-- Embeds `impl Stream for TimeoutStream`'s `poll` of `timeout_stream.rs`.
State and environment are explicit: `timeout` is the stored
`Option<Timeout>` (timers are identified by an abstract id; a fresh timer
always covers the full duration `d`); `new_timer` is the outcome
`Timeout::new(self.duration, &handle)` would have on this poll (used by
`reset_timer`/`get_timer`); `inner` is the inner stream's poll result and
`timer_poll` the poll result of the current timer. Returns the poll
outcome and the new stored timer. -/
def timeout_stream_poll {I E : Type} (timeout : Option Nat)
    (new_timer : Except IoErr Nat) (inner : StreamPoll I E)
    (timer_poll : Except IoErr TimerAsync) :
    TimeoutPollOut I E × Option Nat :=
  match inner with
  | .ready none => (.ready none, timeout)
  | .ready (some item) =>
    match new_timer with
    | .ok t => (.ready (some item), some t)
    | .error e => (.timeoutError e, timeout)
  | .err e => (.streamError e, timeout)
  | .notReady =>
    match timeout with
    | none =>
      match new_timer with
      | .error e => (.timeoutError e, none)
      | .ok t =>
        match timer_poll with
        | .ok .ready => (.ready none, some t)
        | .ok .notReady => (.notReady, some t)
        | .error e => (.timeoutError e, some t)
    | some t =>
      match timer_poll with
      | .ok .ready => (.ready none, some t)
      | .ok .notReady => (.notReady, some t)
      | .error e => (.timeoutError e, some t)

/-! ## txt_record.rs

A `TxtRecord` is its byte buffer (`Vec<u8>`), embedded as `List Nat`.
The helper iterators (`TxtRecordIter`, `PositionKeyIter`) are embedded as
functions computing the list they would yield; they are only ever run on
well-formed buffers (on malformed ones the Rust code would panic on
slicing, while the embedding clamps, but all library entry points keep
the buffer well-formed). -/

/-- Embeds `pub enum TxtRecordError` of `txt_record.rs`. -/
inductive TxtRecordError where
  | InvalidKey
  | EntryTooLong
deriving DecidableEq

namespace TxtRecord

/-- A key byte is valid when it is printable ASCII (0x20..=0x7E) and not
the separator `=` (0x3D); `set` rejects the key otherwise. -/
def keyByteValid (b : Nat) : Bool :=
  !(b == 61) && (decide (32 ≤ b) && decide (b ≤ 126))

/-- The key part of an entry: the bytes before the first `=`, or the whole
entry when there is no `=` (as computed by both iterators). -/
def entryKey (entry : List Nat) : List Nat :=
  match entry.findIdx? (fun b => b == 61) with
  | some pos => entry.take pos
  | none => entry

/-- The value part of an entry: the bytes after the first `=`, or `none`
when there is no `=`. -/
def entryVal (entry : List Nat) : Option (List Nat) :=
  match entry.findIdx? (fun b => b == 61) with
  | some pos => some (entry.drop (pos + 1))
  | none => none

/-- The chunk contents of a buffer: each chunk is one length byte followed
by that many entry bytes (the sequence both iterators traverse). -/
def entries : List Nat → List (List Nat)
  | [] => []
  | len :: rest => rest.take len :: entries (rest.drop len)
termination_by l => l.length
decreasing_by simp [List.length_drop]; omega

/-- The `(key, value)` pairs produced by `TxtRecord::iter`. -/
def iterList (data : List Nat) : List (List Nat × Option (List Nat)) :=
  (entries data).map (fun e => (entryKey e, entryVal e))

/-- Embeds `TxtRecord::get`: the value of the first entry with the given
key (`none`: no such entry; `some none`: entry without value;
`some (some v)`: entry with value `v`). -/
def get (data : List Nat) (key : List Nat) : Option (Option (List Nat)) :=
  ((iterList data).find? (fun kv => kv.fst == key)).map Prod.snd

/-- Embeds `TxtRecord::remove`: drain the first chunk whose key equals
`key` (found via `PositionKeyIter`), keep everything else. -/
def remove (data : List Nat) (key : List Nat) : List Nat :=
  match data with
  | [] => []
  | len :: rest =>
    if entryKey (rest.take len) == key then rest.drop len
    else len :: (rest.take len ++ remove (rest.drop len) key)
termination_by data.length
decreasing_by simp [List.length_drop]; omega

/-- The chunk appended by `set`: the key, then `=` and the value bytes
when a value is present. -/
def mkEntry (key : List Nat) (value : Option (List Nat)) : List Nat :=
  key ++ (match value with | some v => 61 :: v | none => [])

/-- Embeds `TxtRecord::set`: reject keys with invalid bytes, reject
entries longer than 255 bytes, otherwise remove any previous entry for
the key and append the length-prefixed new chunk. -/
def set (data : List Nat) (key : List Nat) (value : Option (List Nat)) :
    Except TxtRecordError (List Nat) :=
  if key.all keyByteValid then
    let entry_len := key.length + (match value with | some v => v.length + 1 | none => 0)
    if entry_len > 255 then .error .EntryTooLong
    else .ok (remove data key ++ entry_len :: mkEntry key value)
  else
    .error .InvalidKey

/-- Embeds `TxtRecord::set_no_value`. -/
def set_no_value (data : List Nat) (key : List Nat) :
    Except TxtRecordError (List Nat) :=
  set data key none

/-- Embeds `TxtRecord::set_value`. -/
def set_value (data : List Nat) (key : List Nat) (value : List Nat) :
    Except TxtRecordError (List Nat) :=
  set data key (some value)

/-- Embeds `TxtRecord::clear`. -/
def clear (_ : List Nat) : List Nat := []

/-- Embeds `TxtRecord::rdata`: a single empty chunk `[0x00]` when the
buffer is empty, the buffer itself otherwise. -/
def rdata (data : List Nat) : List Nat :=
  if data.isEmpty then [0] else data

/-- The validation loop of `TxtRecord::parse_vec`: every chunk's length
byte must fit in the remaining data. -/
def wfBuf : List Nat → Bool
  | [] => true
  | len :: rest => decide (len ≤ rest.length) && wfBuf (rest.drop len)
termination_by l => l.length
decreasing_by simp [List.length_drop]; omega

/-- Embeds `TxtRecord::parse_vec`: a single empty chunk decodes as the
empty record; otherwise the buffer is validated chunk by chunk and kept
as is. -/
def parse_vec (data : List Nat) : Option (List Nat) :=
  if data = [0] then some []
  else if wfBuf data then some data else none

end TxtRecord

/-- One mutating operation of the public `TxtRecord` interface. -/
inductive TxtOp where
  | set : List Nat → Option (List Nat) → TxtOp
  | set_value : List Nat → List Nat → TxtOp
  | set_no_value : List Nat → TxtOp
  | remove : List Nat → TxtOp
  | clear : TxtOp

/-- Apply one operation to the record buffer; a failing `set` leaves the
buffer unchanged (the Rust `set` returns its error before mutating). -/
def TxtRecord.applyOp (data : List Nat) : TxtOp → List Nat
  | .set k v =>
    match TxtRecord.set data k v with
    | .ok d => d
    | .error _ => data
  | .set_value k v =>
    match TxtRecord.set_value data k v with
    | .ok d => d
    | .error _ => data
  | .set_no_value k =>
    match TxtRecord.set_no_value data k with
    | .ok d => d
    | .error _ => data
  | .remove k => TxtRecord.remove data k
  | .clear => TxtRecord.clear data

/-- The buffer reached from the empty record by a sequence of operations. -/
def TxtRecord.run (ops : List TxtOp) : List Nat :=
  ops.foldl TxtRecord.applyOp []

/-- Proof helper: the buffer encoding a given list of entries (each entry
becomes one length-prefixed chunk). -/
def TxtRecord.encode : List (List Nat) → List Nat
  | [] => []
  | e :: es => e.length :: (e ++ TxtRecord.encode es)

/-- Proof helper: `TxtRecord::remove` on the entries view — drop the
first entry whose key matches. -/
def TxtRecord.eraseKey : List (List Nat) → List Nat → List (List Nat)
  | [], _ => []
  | e :: es, k => if TxtRecord.entryKey e == k then es else e :: TxtRecord.eraseKey es k

/-- The implicit invariant on the entries view of a `TxtRecord` buffer:
keys are pairwise distinct, every entry is at most 255 bytes, and every
key byte is valid (printable ASCII, not `=`). -/
def TxtRecord.InvE (es : List (List Nat)) : Prop :=
  es.Pairwise (fun a b => TxtRecord.entryKey a ≠ TxtRecord.entryKey b) ∧
  ∀ e ∈ es, e.length ≤ 255 ∧ ∀ b ∈ TxtRecord.entryKey e, TxtRecord.keyByteValid b = true

/-! ## Claim theorems: interfaces and errors -/

/-- C5: For every `u32` value `x`,
`Interface::from_raw(x).into_raw() == x` — the five-variant interface
encoding (0 = Any, all-ones = LocalOnly, !1 = Unicast, !2 = PeerToPeer,
anything else = Index) round-trips exactly. -/
theorem claim_C5_interface_roundtrip (x : Nat) (hx : x < 2 ^ 32) :
    (Interface.from_raw x).into_raw = x := by
  unfold Interface.from_raw
  split
  · rename_i h; simp [Interface.into_raw, h]
  · split
    · rename_i h; simp [Interface.into_raw, h]
    · split
      · rename_i h; simp [Interface.into_raw, h]
      · split
        · rename_i h; simp [Interface.into_raw, h]
        · rfl

/-- Witness for C5: the round-trip at the concrete raw value 5. -/
theorem claim_C5_interface_roundtrip_witness :
    (Interface.from_raw 5).into_raw = 5 :=
  claim_C5_interface_roundtrip 5 (by norm_num)

/-- C10: `InterfaceIndex::from_raw(x)` returns `None` exactly on the four
reserved raw values 0, 0xFFFFFFFF, 0xFFFFFFFE, 0xFFFFFFFD, and on every
other `u32` it returns `Some(ix)` with `ix.into_raw() == x`. -/
theorem claim_C10_interface_index_from_raw (x : Nat) (hx : x < 2 ^ 32) :
    (InterfaceIndex.from_raw x = none ↔
      x = 0 ∨ x = 4294967295 ∨ x = 4294967294 ∨ x = 4294967293) ∧
    (∀ ix : InterfaceIndex, InterfaceIndex.from_raw x = some ix →
      ix.into_raw = x) := by
  unfold InterfaceIndex.from_raw
  unfold INTERFACE_INDEX_ANY INTERFACE_INDEX_LOCAL_ONLY
    INTERFACE_INDEX_UNICAST INTERFACE_INDEX_P2P
  constructor
  · by_cases h0 : x = 0 <;> by_cases h1 : x = 4294967295 <;>
      by_cases h2 : x = 4294967294 <;> by_cases h3 : x = 4294967293 <;>
      simp [h0, h1, h2, h3]
  · intro ix h
    by_cases h0 : x = 0 <;> by_cases h1 : x = 4294967295 <;>
      by_cases h2 : x = 4294967294 <;> by_cases h3 : x = 4294967293 <;>
      simp [h0, h1, h2, h3] at h <;>
      simp [InterfaceIndex.into_raw, ← h]

/-- Witness for C10: at the non-reserved raw value 7 the conversion
succeeds and round-trips. -/
theorem claim_C10_interface_index_from_raw_witness :
    InterfaceIndex.into_raw ⟨7⟩ = 7 :=
  (claim_C10_interface_index_from_raw 7 (by norm_num)).2 ⟨7⟩ (by decide)

/-- C3 (code evaluated at the failing inputs): the error conversion of
the code as written does NOT know the codes for `Firewall` (-65550),
`BadTime` (-65559), `BadSig`, `BadKey`, `Transient`, `ServiceNotRunning`
…: they come out as `UnknownError`, although `error.rs`'s `description()`
match names `Firewall`, `NATTraversal`, `DoubleNAT`, `BadTime`, `BadSig`,
`BadKey`, `Transient`, `ServiceNotRunning`, `NATPortMappingUnsupported`,
`NATPortMappingDisabled`, `NoRouter`, `PollingMode`, `Timeout`,
`DefunctConnection`, `PolicyDenied`, `NotPermitted` and `StaleData` as
patterns of the very same enum (with the enum as declared, `Firewall`
degenerates to a catch-all binding, which makes `error.rs`'s own unit
test `description(NoAuth) == "no auth"` fail). -/
theorem claim_C3_missing_variants :
    Error.from (-65550) = .error (.UnknownError (-65550)) ∧
    Error.from (-65559) = .error (.UnknownError (-65559)) ∧
    Error.from (-65560) = .error (.UnknownError (-65560)) ∧
    Error.from (-65561) = .error (.UnknownError (-65561)) ∧
    Error.from (-65562) = .error (.UnknownError (-65562)) ∧
    Error.from (-65563) = .error (.UnknownError (-65563)) ∧
    Error.from 0 = .ok () := by
  refine ⟨?_, ?_, ?_, ?_, ?_, ?_, ?_⟩ <;> rfl

/-- C1 counterexample: at rdata length 65536 (the smallest length that
does not fit in 16 bits) the submission prologue panics on its
`assert!(rd_len < (1 << 16))`; it does not return an `InvalidInput`
error, contrary to the claim. -/
theorem claim_C1_counterexample :
    rd_len_check 65536 = RdLenOutcome.panicked ∧
    rd_len_check 65536 ≠ RdLenOutcome.invalidInputError := by
  constructor <;> decide

/-- C1 (amended): for every `add_record`, `register_record` or
`update_record` call whose rdata byte-slice length does not fit in 16
bits, the operation panics at submission (assertion failure) before any C
FFI call, so no record state is created — it does not fail with an
`InvalidInput` error. -/
theorem claim_C1_amended (rdata_len : Nat) (h : 2 ^ 16 ≤ rdata_len) :
    rd_len_check rdata_len = RdLenOutcome.panicked := by
  unfold rd_len_check
  rw [if_neg (by omega)]

/-- Witness for the amended C1 at the concrete length 65536. -/
theorem claim_C1_amended_witness :
    rd_len_check 65536 = RdLenOutcome.panicked :=
  claim_C1_amended 65536 (by norm_num)

/-- C2 counterexample: no function of the delivered `RegisterResult` can
recover the `ADD` flag (bit 1) that the C library passed to
`register_callback` — two callback invocations differing only in that
flag deliver identical results, so the result does not carry a flags
field exposing it. -/
theorem claim_C2_counterexample :
    ¬ ∃ view : RegisterResult → Bool, ∀ (fl : Nat) (n t d : String),
        view (register_callback fl n t d) = fl.testBit 1 := by
  rintro ⟨view, h⟩
  have h0 := h 0 "a" "_test._tcp" "local."
  have h2 := h 2 "a" "_test._tcp" "local."
  rw [show register_callback 2 "a" "_test._tcp" "local."
      = register_callback 0 "a" "_test._tcp" "local." from rfl] at h2
  rw [h0] at h2
  exact absurd h2 (by decide)

/-- C2 (amended): every registration status update delivered by the
register operation carries exactly the name, reg_type and domain strings;
the flags argument passed to the register callback by the C library is
ignored, so the result is independent of it. -/
theorem claim_C2_amended (fl fl₂ : Nat) (n t d : String) :
    register_callback fl n t d = register_callback fl₂ n t d ∧
    (register_callback fl n t d).name = n ∧
    (register_callback fl n t d).reg_type = t ∧
    (register_callback fl n t d).domain = d :=
  ⟨rfl, rfl, rfl, rfl⟩

/-- C6: dropping a record handle issues exactly one
`DNSServiceRemoveRecord` call for that record on the parent handle,
unless `keep` was called on the record first, in which case dropping it
issues no FFI call at all and the record is left to the parent handle's
lifetime. -/
theorem claim_C6_record_drop (record_ref : Nat) :
    (DNSRecord.fromSubmission record_ref).dropCalls
      = [.removeRecord record_ref] ∧
    (DNSRecord.fromSubmission record_ref).keep.dropCalls = [] :=
  ⟨rfl, rfl⟩

/-- C7: in host address resolution an incoming query-record result is
forwarded as an address item exactly when its class is `IN`, its type
matches the queried type and its rdata length is 4 (A) resp. 16 (AAAA);
a forwarded item's address carries the caller's port and a scope id equal
to the result's interface index (0 when no single interface is
selected). -/
theorem claim_C7_resolve_host_decode (a : QueryRecordResult) (port : Nat) :
    ((decode_a a port).isSome ↔
      a.rr_class = Class.IN ∧ a.rr_type = RRType.A ∧ a.rdata.length = 4) ∧
    ((decode_aaaa a port).isSome ↔
      a.rr_class = Class.IN ∧ a.rr_type = RRType.AAAA ∧ a.rdata.length = 16) ∧
    ((decode_a a port).elim True fun r =>
      r.address = .V4 a.rdata port a.interface.scope_id) ∧
    ((decode_aaaa a port).elim True fun r =>
      r.address = .V6 a.rdata port a.interface.scope_id) := by
  refine ⟨?_, ?_, ?_, ?_⟩ <;> simp only [decode_a, decode_aaaa] <;>
    split <;> simp_all

/-- Witness for C7: a concrete `IN A` record with 4 rdata bytes is
forwarded. -/
theorem claim_C7_resolve_host_decode_witness :
    (decode_a
      { flags := 3, interface := .Index ⟨2⟩, fullname := "host.local.",
        rr_type := RRType.A, rr_class := Class.IN, rdata := [10, 0, 0, 1],
        ttl := 120 } 22).isSome :=
  (claim_C7_resolve_host_decode _ 22).1.mpr (by decide)

/-- C8: one poll of the timeout stream combinator — every item emitted by
the inner stream resets the timer (the stored timer is replaced by a
freshly created one); if the timer fires while the inner stream is
pending, the poll returns end-of-stream (not an error); an inner-stream
error is passed through unchanged (as the `StreamError` wrapping of the
very same error value). -/
theorem claim_C8_timeout_stream (I E : Type) (timeout : Option Nat)
    (t : Nat) (new_timer : Except IoErr Nat)
    (timer_poll : Except IoErr TimerAsync) :
    (∀ item : I,
      timeout_stream_poll timeout (.ok t)
          (.ready (some item) : StreamPoll I E) timer_poll
        = (.ready (some item), some t)) ∧
    ((timeout_stream_poll timeout (.ok t) (.notReady : StreamPoll I E)
        (.ok .ready)).fst = .ready none) ∧
    (∀ e : E,
      timeout_stream_poll timeout new_timer (.err e : StreamPoll I E)
          timer_poll
        = (.streamError e, timeout)) := by
  refine ⟨fun item => rfl, ?_, fun e => rfl⟩
  cases timeout <;> rfl

/-! ## TXT record codec lemmas -/

namespace TxtRecord

theorem findIdx_no_sep (k : List Nat) (hk : ∀ b ∈ k, (b == 61) = false) :
    ∀ i, List.findIdx? (fun b => b == 61) k i = none := by
  induction k with
  | nil => intro i; rfl
  | cons a rest ih =>
    intro i
    rw [List.findIdx?_cons, hk a (by simp)]
    simpa using ih (fun b hb => hk b (by simp [hb])) (i + 1)

theorem findIdx_sep (k v : List Nat) (hk : ∀ b ∈ k, (b == 61) = false) :
    ∀ i, List.findIdx? (fun b => b == 61) (k ++ 61 :: v) i = some (k.length + i) := by
  induction k with
  | nil => intro i; simp [List.findIdx?_cons]
  | cons a rest ih =>
    intro i
    rw [List.cons_append, List.findIdx?_cons, hk a (by simp)]
    simp only [Bool.false_eq_true, if_false]
    rw [ih (fun b hb => hk b (by simp [hb])) (i + 1)]
    congr 1
    simp [List.length_cons]
    omega

theorem entryKey_no_sep (k : List Nat) (hk : ∀ b ∈ k, (b == 61) = false) :
    entryKey k = k := by
  unfold entryKey
  rw [findIdx_no_sep k hk 0]

theorem entryKey_sep (k v : List Nat) (hk : ∀ b ∈ k, (b == 61) = false) :
    entryKey (k ++ 61 :: v) = k := by
  unfold entryKey
  rw [findIdx_sep k v hk 0]
  simpa using List.take_left k (61 :: v)

theorem entryVal_no_sep (k : List Nat) (hk : ∀ b ∈ k, (b == 61) = false) :
    entryVal k = none := by
  unfold entryVal
  rw [findIdx_no_sep k hk 0]

theorem entryVal_sep (k v : List Nat) (hk : ∀ b ∈ k, (b == 61) = false) :
    entryVal (k ++ 61 :: v) = some v := by
  unfold entryVal
  rw [findIdx_sep k v hk 0]
  show some (List.drop (k.length + 0 + 1) (k ++ 61 :: v)) = some v
  have h1 : k.length + 0 + 1 = k.length + 1 := by omega
  rw [h1, List.drop_append 1]
  simp

theorem entryKey_mkEntry (k : List Nat) (v : Option (List Nat))
    (hk : ∀ b ∈ k, (b == 61) = false) :
    entryKey (mkEntry k v) = k := by
  cases v with
  | none => simpa [mkEntry] using entryKey_no_sep k hk
  | some v => simpa [mkEntry] using entryKey_sep k v hk

theorem entryVal_mkEntry (k : List Nat) (v : Option (List Nat))
    (hk : ∀ b ∈ k, (b == 61) = false) :
    entryVal (mkEntry k v) = v := by
  cases v with
  | none => simpa [mkEntry] using entryVal_no_sep k hk
  | some v => simpa [mkEntry] using entryVal_sep k v hk

theorem length_mkEntry (k : List Nat) (v : Option (List Nat)) :
    (mkEntry k v).length
      = k.length + (match v with | some v => v.length + 1 | none => 0) := by
  cases v <;> simp [mkEntry]

theorem keyByteValid_iff (b : Nat) :
    keyByteValid b = true ↔ 32 ≤ b ∧ b ≤ 126 ∧ b ≠ 61 := by
  simp only [keyByteValid, Bool.and_eq_true, Bool.not_eq_eq_eq_not,
    Bool.not_true, beq_eq_false_iff_ne, decide_eq_true_eq]
  tauto

theorem entries_encode (es : List (List Nat)) : entries (encode es) = es := by
  induction es with
  | nil => simp [encode, entries]
  | cons e es ih =>
    rw [encode, entries, List.take_left, List.drop_left, ih]

theorem wfBuf_encode (es : List (List Nat)) : wfBuf (encode es) = true := by
  induction es with
  | nil => simp [encode, wfBuf]
  | cons e es ih =>
    rw [encode, wfBuf, List.drop_left]
    simp [ih, List.length_append]

theorem encode_entries (data : List Nat) (h : wfBuf data = true) :
    encode (entries data) = data := by
  induction data using entries.induct with
  | case1 => simp [entries, encode]
  | case2 len rest ih =>
    rw [wfBuf, Bool.and_eq_true, decide_eq_true_eq] at h
    rw [entries, encode, ih h.2, List.length_take]
    rw [Nat.min_eq_left h.1, List.take_append_drop]

theorem encode_append (es₁ es₂ : List (List Nat)) :
    encode (es₁ ++ es₂) = encode es₁ ++ encode es₂ := by
  induction es₁ with
  | nil => rfl
  | cons e es ih => simp [encode, ih]

theorem remove_encode (es : List (List Nat)) (k : List Nat) :
    remove (encode es) k = encode (eraseKey es k) := by
  induction es with
  | nil => simp [encode, eraseKey, remove]
  | cons e es ih =>
    rw [encode, remove, List.take_left]
    by_cases hc : (entryKey e == k) = true
    · simp [eraseKey, hc, List.drop_left]
    · simp only [hc, if_false, List.drop_left, ih]
      simp [eraseKey, hc, encode]

theorem eraseKey_sublist (es : List (List Nat)) (k : List Nat) :
    (eraseKey es k).Sublist es := by
  induction es with
  | nil => simp [eraseKey]
  | cons e es ih =>
    rw [eraseKey]
    split
    · exact List.sublist_cons_self e es
    · exact ih.cons₂ e

theorem entryKey_ne_of_eraseKey (es : List (List Nat)) (k : List Nat)
    (hp : es.Pairwise (fun a b => entryKey a ≠ entryKey b)) :
    ∀ e ∈ eraseKey es k, entryKey e ≠ k := by
  induction es with
  | nil => intro e he; simp [eraseKey] at he
  | cons a es ih =>
    rw [List.pairwise_cons] at hp
    intro e he
    rw [eraseKey] at he
    split at he
    · rename_i hc
      have hak : entryKey a = k := by simpa using hc
      intro hek
      exact hp.1 e he (hak.trans hek.symm)
    · rename_i hc
      rcases List.mem_cons.mp he with rfl | he₂
      · simpa using hc
      · exact ih hp.2 e he₂

theorem InvE_eraseKey (es : List (List Nat)) (k : List Nat) (h : InvE es) :
    InvE (eraseKey es k) :=
  ⟨List.Pairwise.sublist (eraseKey_sublist es k) h.1,
   fun e he => h.2 e ((eraseKey_sublist es k).subset he)⟩

theorem key_no_sep_of_valid (k : List Nat)
    (hk : ∀ b ∈ k, keyByteValid b = true) :
    ∀ b ∈ k, (b == 61) = false := by
  intro b hb
  have h := (keyByteValid_iff b).mp (hk b hb)
  simpa using h.2.2

theorem InvE_setEntry (es : List (List Nat)) (k : List Nat)
    (v : Option (List Nat)) (h : InvE es)
    (hk : ∀ b ∈ k, keyByteValid b = true)
    (hlen : (mkEntry k v).length ≤ 255) :
    InvE (eraseKey es k ++ [mkEntry k v]) := by
  have hk61 := key_no_sep_of_valid k hk
  constructor
  · rw [List.pairwise_append]
    refine ⟨(InvE_eraseKey es k h).1, List.pairwise_singleton _ _, ?_⟩
    intro a ha b hb
    rw [List.mem_singleton] at hb
    subst hb
    rw [entryKey_mkEntry k v hk61]
    exact entryKey_ne_of_eraseKey es k h.1 a ha
  · intro e he
    rcases List.mem_append.mp he with he | he
    · exact h.2 e ((eraseKey_sublist es k).subset he)
    · rw [List.mem_singleton] at he
      subst he
      exact ⟨hlen, by rw [entryKey_mkEntry k v hk61]; exact hk⟩

theorem set_ok (data k : List Nat) (v : Option (List Nat)) (d : List Nat)
    (h : set data k v = .ok d) :
    (∀ b ∈ k, keyByteValid b = true) ∧ (mkEntry k v).length ≤ 255 ∧
    d = remove data k ++ (mkEntry k v).length :: mkEntry k v := by
  cases v with
  | none =>
    simp only [set] at h
    split at h
    · rename_i hall
      split at h
      · cases h
      · rename_i hlen
        cases h
        refine ⟨List.all_eq_true.mp hall, ?_, ?_⟩
        · simp only [mkEntry, List.append_nil]; omega
        · simp [mkEntry]
    · cases h
  | some w =>
    simp only [set] at h
    split at h
    · rename_i hall
      split at h
      · cases h
      · rename_i hlen
        cases h
        refine ⟨List.all_eq_true.mp hall, ?_, ?_⟩
        · simp only [mkEntry, List.length_append, List.length_cons]; omega
        · simp [mkEntry]
    · cases h

theorem InvE_empty : InvE [] := by
  constructor
  · exact List.Pairwise.nil
  · intro e he; simp at he

theorem InvD_applyOp (data : List Nat) (op : TxtOp)
    (h : ∃ es, data = encode es ∧ InvE es) :
    ∃ es, applyOp data op = encode es ∧ InvE es := by
  obtain ⟨es, rfl, hes⟩ := h
  have hset : ∀ k v, ∃ es₂,
      (match set (encode es) k v with
        | .ok d => d
        | .error _ => encode es) = encode es₂ ∧ InvE es₂ := by
    intro k v
    cases hs : set (encode es) k v with
    | error e => exact ⟨es, by simp, hes⟩
    | ok d =>
      obtain ⟨hk, hlen, rfl⟩ := set_ok _ _ _ _ hs
      refine ⟨eraseKey es k ++ [mkEntry k v], ?_, InvE_setEntry es k v hes hk hlen⟩
      rw [remove_encode, encode_append, encode]
      simp [encode]
  cases op with
  | set k v => simpa only [applyOp] using hset k v
  | set_value k v => simpa only [applyOp, set_value] using hset k (some v)
  | set_no_value k => simpa only [applyOp, set_no_value] using hset k none
  | remove k =>
    exact ⟨eraseKey es k, by simpa [applyOp] using remove_encode es k,
      InvE_eraseKey es k hes⟩
  | clear => exact ⟨[], rfl, InvE_empty⟩

theorem InvD_run (ops : List TxtOp) :
    ∃ es, run ops = encode es ∧ InvE es := by
  unfold run
  have hgen : ∀ data, (∃ es, data = encode es ∧ InvE es) →
      ∃ es, List.foldl applyOp data ops = encode es ∧ InvE es := by
    induction ops with
    | nil => intro data h; simpa using h
    | cons op ops ih =>
      intro data h
      rw [List.foldl_cons]
      exact ih _ (InvD_applyOp data op h)
  exact hgen [] ⟨[], rfl, InvE_empty⟩

end TxtRecord

/-- C9: every `TxtRecord` reachable from the empty record by any sequence
of `set`, `set_value`, `set_no_value`, `remove` and `clear` operations is
a well-formed chunk buffer in which no two entries share a key, every
entry is at most 255 bytes, and every key byte is printable ASCII
(0x20..=0x7E) excluding `=` — in particular `set` on an existing key
first removes the old entry, so keys stay unique. -/
theorem claim_C9_txt_invariant (ops : List TxtOp) :
    TxtRecord.wfBuf (TxtRecord.run ops) = true ∧
    (TxtRecord.entries (TxtRecord.run ops)).Pairwise
      (fun e₁ e₂ => TxtRecord.entryKey e₁ ≠ TxtRecord.entryKey e₂) ∧
    ∀ e ∈ TxtRecord.entries (TxtRecord.run ops),
      e.length ≤ 255 ∧ ∀ b ∈ TxtRecord.entryKey e, 32 ≤ b ∧ b ≤ 126 ∧ b ≠ 61 := by
  obtain ⟨es, heq, hinv⟩ := TxtRecord.InvD_run ops
  rw [heq, TxtRecord.entries_encode]
  refine ⟨TxtRecord.wfBuf_encode es, hinv.1,
    fun e he => ⟨(hinv.2 e he).1, fun b hb => ?_⟩⟩
  exact (TxtRecord.keyByteValid_iff b).mp ((hinv.2 e he).2 b hb)

/-- C4: for every key of printable ASCII bytes excluding `=` (1..64
bytes) and every value of bytes with `len(k)+len(v)+1 <= 255`: `set` on
the empty record succeeds and produces the single length-prefixed chunk;
`get` then returns the value; the wire form (`rdata`) parses back
unchanged and its iterator's first pair is `(k, Some v)`. -/
theorem claim_C4_txt_roundtrip (k v : List Nat)
    (hk₁ : 1 ≤ k.length) (hk₂ : k.length ≤ 64)
    (hkb : ∀ b ∈ k, 32 ≤ b ∧ b ≤ 126 ∧ b ≠ 61)
    (hvb : ∀ b ∈ v, b < 256)
    (hlen : k.length + v.length + 1 ≤ 255) :
    TxtRecord.set [] k (some v)
        = .ok ((k.length + (v.length + 1)) :: (k ++ 61 :: v)) ∧
    TxtRecord.get ((k.length + (v.length + 1)) :: (k ++ 61 :: v)) k
        = some (some v) ∧
    TxtRecord.parse_vec
        (TxtRecord.rdata ((k.length + (v.length + 1)) :: (k ++ 61 :: v)))
        = some ((k.length + (v.length + 1)) :: (k ++ 61 :: v)) ∧
    (TxtRecord.iterList
        ((k.length + (v.length + 1)) :: (k ++ 61 :: v))).head?
        = some (k, some v) := by
  have hk61 : ∀ b ∈ k, (b == 61) = false := fun b hb => by
    simpa using (hkb b hb).2.2
  have hall : k.all TxtRecord.keyByteValid = true :=
    List.all_eq_true.mpr
      (fun b hb => (TxtRecord.keyByteValid_iff b).mpr (hkb b hb))
  have hrest : (k ++ 61 :: v).length = k.length + (v.length + 1) := by
    simp
  have hentries :
      TxtRecord.entries ((k.length + (v.length + 1)) :: (k ++ 61 :: v))
        = [k ++ 61 :: v] := by
    rw [TxtRecord.entries, ← hrest, List.take_length, List.drop_length,
      TxtRecord.entries]
  have hiter :
      TxtRecord.iterList ((k.length + (v.length + 1)) :: (k ++ 61 :: v))
        = [(k, some v)] := by
    unfold TxtRecord.iterList
    rw [hentries]
    simp [TxtRecord.entryKey_sep k v hk61, TxtRecord.entryVal_sep k v hk61]
  have hwf :
      TxtRecord.wfBuf ((k.length + (v.length + 1)) :: (k ++ 61 :: v))
        = true := by
    rw [TxtRecord.wfBuf, ← hrest, List.drop_length]
    simp [TxtRecord.wfBuf]
  have hne : ((k.length + (v.length + 1)) :: (k ++ 61 :: v)) ≠ [0] := by
    simp
  refine ⟨?_, ?_, ?_, ?_⟩
  · unfold TxtRecord.set
    rw [if_pos hall]
    simp only []
    rw [if_neg (by omega)]
    simp [TxtRecord.remove, TxtRecord.mkEntry]
  · unfold TxtRecord.get
    rw [hiter]
    simp [List.find?]
  · unfold TxtRecord.rdata
    rw [if_neg (by simp)]
    unfold TxtRecord.parse_vec
    rw [if_neg hne, if_pos hwf]
  · rw [hiter]
    rfl

/-- Witness for C4 at the concrete key `"k"` and value `"v"`. -/
theorem claim_C4_txt_roundtrip_witness :
    TxtRecord.set [] [107] (some [118]) = .ok [3, 107, 61, 118] ∧
    TxtRecord.get [3, 107, 61, 118] [107] = some (some [118]) ∧
    TxtRecord.parse_vec (TxtRecord.rdata [3, 107, 61, 118])
        = some [3, 107, 61, 118] ∧
    (TxtRecord.iterList [3, 107, 61, 118]).head? = some ([107], some [118]) := by
  simpa using claim_C4_txt_roundtrip [107] [118] (by decide) (by decide)
    (by decide) (by decide) (by decide)

end AsyncDnssd
